import Mathlib

/-!
Formalization of the photorific server core (src/server/index.js):
job lifecycle, progress computation, transfer-strategy selection,
destination-key construction, directory scanning, sync reconciliation
and the batch upload orchestrator.  Definitions are shallow embeddings
of the JavaScript source; theorems settle the specification claims.
-/

namespace Photorific

/-- Job status values used by the server: a job starts `running` and is
moved to `completed` or `failed` by the corresponding methods. -/
inductive JobStatus where
  | running
  | completed
  | failed
deriving DecidableEq, Repr

/-- JS `Math.round` on a nonnegative rational: round half toward plus
infinity, i.e. `floor (q + 1/2)`. -/
def jsRound (q : ℚ) : ℤ := ⌊q + 1/2⌋

/-- The Job record of src/server/index.js (class Job).  `progress` is
`Option ℤ`: `some p` is a finite JS number, `none` models the non-finite
value (NaN or Infinity) produced when the JS code divides by a zero
`totalItems`.  The `startTime` field and the WebSocket `broadcastUpdate`
side effect carry no job state and are omitted. -/
structure Job where
  id : String
  type : String
  status : JobStatus
  progress : Option ℤ
  totalItems : Nat
  completedItems : Nat
  failedItems : Nat
  currentItem : Option String
  errors : List String
deriving DecidableEq, Repr

/-- Constructor `new Job(id, type, totalItems)`: status running, progress 0,
zero counters, no current item, empty error list. -/
def Job.new (id type : String) (totalItems : Nat) : Job :=
  { id := id, type := type, status := .running, progress := some 0,
    totalItems := totalItems, completedItems := 0, failedItems := 0,
    currentItem := none, errors := [] }

/-- Job.updateProgress(completedItems, currentItem, error): sets the
completed count and current-item label, recomputes
`progress = Math.round((completedItems / totalItems) * 100)` (non-finite,
modelled as `none`, when `totalItems = 0`), and, when an error is supplied,
increments `failedItems` and appends the error to `errors`. -/
def Job.updateProgress (j : Job) (completedItems : Nat)
    (currentItem : Option String) (error : Option String) : Job :=
  { j with
    completedItems := completedItems
    currentItem := currentItem
    progress :=
      if j.totalItems = 0 then none
      else some (jsRound ((completedItems : ℚ) / (j.totalItems : ℚ) * 100))
    failedItems := j.failedItems + (if error.isSome then 1 else 0)
    errors := j.errors ++ error.toList }

/-- Job.complete(): status completed, progress forced to 100, current item
cleared.  No guard: it overwrites whatever status the job had. -/
def Job.complete (j : Job) : Job :=
  { j with status := .completed, progress := some 100, currentItem := none }

/-- Job.fail(error): status failed, error appended.  No guard: it
overwrites whatever status the job had. -/
def Job.fail (j : Job) (error : String) : Job :=
  { j with status := .failed, errors := j.errors ++ [error] }

/-- One registry operation on a job, as invoked by the request handlers. -/
inductive JobOp where
  | update (completedItems : Nat) (currentItem : Option String) (error : Option String)
  | complete
  | fail (error : String)
deriving DecidableEq, Repr

/-- Apply one registry operation to a job. -/
def Job.applyOp (j : Job) : JobOp → Job
  | .update k item err => j.updateProgress k item err
  | .complete => j.complete
  | .fail e => j.fail e

/-- Apply a sequence of registry operations, oldest first. -/
def Job.runOps (j : Job) (ops : List JobOp) : Job :=
  ops.foldl Job.applyOp j

/-- The 100 MiB threshold check of the upload endpoints:
`fileSize > 100 * 1024 * 1024`. -/
def isLargeFile (fileSize : Nat) : Bool :=
  fileSize > 100 * 1024 * 1024

/-- The two transfer strategies of the spec. -/
inductive TransferStrategy where
  | buffered
  | streaming
deriving DecidableEq, Repr

/-- Strategy selection as performed by the upload endpoints: streaming
exactly when `isLargeFile`, otherwise buffered. -/
def selectStrategy (fileSize : Nat) : TransferStrategy :=
  if isLargeFile fileSize then .streaming else .buffered

/-- The expandTilde helper: a path starting with the two characters
tilde-slash is resolved against the home directory (passed explicitly here;
the server reads it from the OS).  `path.join(homedir, rest)` is rendered
as homedir ++ "/" ++ rest for a homedir without a trailing slash. -/
def expandTilde (homedir filePath : String) : String :=
  if filePath.data.take 2 = ['~', '/'] then homedir ++ "/" ++ ⟨filePath.data.drop 2⟩
  else filePath

/-- Node `path.basename` on a POSIX path: strip trailing slashes, then take
the segment after the last remaining slash; an all-slash nonempty path has
basename "/", the empty path has basename "". -/
def basenamePosix (p : String) : String :=
  let r := p.data.reverse.dropWhile (fun c => c = '/')
  if r.isEmpty then (if p.data.isEmpty then "" else "/")
  else ⟨(r.takeWhile (fun c => c ≠ '/')).reverse⟩

/-- Node `path.extname` on a bare filename: the substring starting at the
last dot, except that a filename without a dot, or whose only dot is its
leading character (a dotfile), has extension "". -/
def extname (filename : String) : String :=
  let cs := filename.data
  let afterRev := cs.reverse.takeWhile (fun c => c ≠ '.')
  if afterRev.length = cs.length then ""
  else if afterRev.length + 1 = cs.length then ""
  else ⟨'.' :: afterRev.reverse⟩

/-- The fixed extension list of getSupportedExtensions() (".dng" appears
twice in the source, under Adobe/Generic and under Leica). -/
def getSupportedExtensions : List String :=
  [".jpg", ".jpeg", ".png", ".gif", ".bmp", ".tiff", ".tif", ".webp",
   ".heic", ".heif",
   ".cr2", ".cr3", ".crw",
   ".nef", ".nrw",
   ".arw", ".srf", ".sr2",
   ".dng",
   ".raf",
   ".orf",
   ".rw2", ".raw",
   ".pef", ".ptx",
   ".dng", ".rwl",
   ".iiq",
   ".3fr",
   ".mef",
   ".dcr", ".kdc",
   ".mrw",
   ".srw",
   ".x3f",
   ".erf",
   ".mp4", ".mov", ".avi", ".mkv", ".wmv", ".flv", ".webm", ".m4v",
   ".3gp", ".mts", ".m2ts", ".mpg", ".mpeg", ".m2v", ".asf", ".rm",
   ".rmvb", ".vob", ".ts", ".f4v"]

/-- isImageFile: the lower-cased extension is in the supported list. -/
def isImageFile (filename : String) : Bool :=
  getSupportedExtensions.contains (extname filename).toLower

/-- Node `path.join(a, b)` for the simple segments the scanner produces:
"" joined with b is b, otherwise a slash is inserted. -/
def joinPath (a b : String) : String :=
  if a = "" then b else a ++ "/" ++ b

/-- The upload key normalization `relativePath.replace(backslash regex, "/")`:
every backslash character becomes a forward slash. -/
def replaceBackslashes (s : String) : String :=
  ⟨s.data.map (fun c => if c = '\\' then '/' else c)⟩

/-- The reconciliation key stripping
`obj.Key.replace(new RegExp("^" + baseFolderName + "/"), "")`: when the key
starts with baseFolderName followed by a slash that prefix is removed,
otherwise the key is unchanged (modelled for base names without regex
metacharacters, which is what the anchored regex performs). -/
def stripBase (base key : String) : String :=
  let p := (base ++ "/").data
  if key.data.take p.length = p then ⟨key.data.drop p.length⟩ else key

/-- The configuration fields of requests that the key scheme uses. -/
structure Config where
  folderPath : String
deriving DecidableEq, Repr

/-- baseFolderName as computed by the handlers:
`path.basename(expandTilde(config.folderPath))`. -/
def baseFolderName (homedir : String) (cfg : Config) : String :=
  basenamePosix (expandTilde homedir cfg.folderPath)

/-- The destination key of /api/upload-folder: with structure preserved it
is baseFolderName/relativePath with backslashes normalized to slashes;
otherwise baseFolderName/(Date.now())_filename, `now` being the
millisecond timestamp printed in decimal. -/
def s3KeyUploadFolder (homedir : String) (cfg : Config)
    (preserveStructure : Bool) (now : Nat)
    (relativePath filename : String) : String :=
  let base := baseFolderName homedir cfg
  if preserveStructure then base ++ "/" ++ replaceBackslashes relativePath
  else base ++ "/" ++ Nat.repr now ++ "_" ++ filename

/-- A file entry produced by the scanner (the uuidv4 id is generated by an
external library and does not participate in any aggregate, so it is
omitted; `lastModified` likewise carries no aggregation state). -/
structure Photo where
  name : String
  size : Nat
  relativePath : String
deriving DecidableEq, Repr

/-- The filesystem tree underneath a scanned directory, as the recursive
walk observes it: each entry is either a plain file (with its stat size) or
a subdirectory with its own entries, in directory-listing order. -/
inductive FsTree where
  | file (name : String) (size : Nat)
  | dir (name : String) (children : List FsTree)

/-- The folderData record built by scanDirectory.  Subfolders is the
insertion-ordered association list `subfolders[item] = subfolder`. -/
inductive FolderData where
  | node (name path : String) (photos : List Photo)
      (subfolders : List (String × FolderData))
      (photoCount totalSize : Nat)

def FolderData.name : FolderData → String
  | .node n _ _ _ _ _ => n

def FolderData.path : FolderData → String
  | .node _ p _ _ _ _ => p

def FolderData.photos : FolderData → List Photo
  | .node _ _ ph _ _ _ => ph

def FolderData.subfolders : FolderData → List (String × FolderData)
  | .node _ _ _ sf _ _ => sf

def FolderData.photoCount : FolderData → Nat
  | .node _ _ _ _ c _ => c

def FolderData.totalSize : FolderData → Nat
  | .node _ _ _ _ _ s => s

/-- The freshly initialized folderData of one scanDirectory call. -/
def emptyFolder (name relativePath : String) : FolderData :=
  .node name relativePath [] [] 0 0

/-- The body of scanDirectory's `for (const item of items)` loop, folded
over the directory entries: a subdirectory is scanned recursively and its
aggregates merged into the parent; a file whose extension passes
isImageFile is appended to photos and counted; any other file is skipped.
The recursive call on a subdirectory re-enters the loop on the
subdirectory's own entries starting from a fresh folderData. -/
def scanItems (items : List FsTree) (acc : FolderData)
    (relativePath : String) : FolderData :=
  match items with
  | [] => acc
  | .dir dname children :: rest =>
    let childRel := joinPath relativePath dname
    let subfolder := scanItems children (emptyFolder dname childRel) childRel
    scanItems rest
      (.node acc.name acc.path acc.photos (acc.subfolders ++ [(dname, subfolder)])
        (acc.photoCount + subfolder.photoCount)
        (acc.totalSize + subfolder.totalSize))
      relativePath
  | .file fname fsize :: rest =>
    if isImageFile fname then
      scanItems rest
        (.node acc.name acc.path
          (acc.photos ++ [⟨fname, fsize, joinPath relativePath fname⟩])
          acc.subfolders (acc.photoCount + 1) (acc.totalSize + fsize))
        relativePath
    else
      scanItems rest acc relativePath
termination_by sizeOf items

/-- scanDirectory(dirPath, relativePath): scan the directory's entries into
a folderData whose name is the directory's basename. -/
def scanDirectory (dirName : String) (items : List FsTree)
    (relativePath : String) : FolderData :=
  scanItems items (emptyFolder dirName relativePath) relativePath

/-- Total size of a photo list. -/
def photosSize (ps : List Photo) : Nat :=
  (ps.map Photo.size).sum

/-- Sum of the aggregated photo counts of a subfolder list. -/
def subCounts (subs : List (String × FolderData)) : Nat :=
  (subs.map (fun p => p.2.photoCount)).sum

/-- Sum of the aggregated sizes of a subfolder list. -/
def subSizes (subs : List (String × FolderData)) : Nat :=
  (subs.map (fun p => p.2.totalSize)).sum

/-- The aggregation invariant, at every node of a folder tree: the
aggregated count is the node's own file count plus the children's
aggregated counts, and likewise for sizes. -/
inductive AggOk : FolderData → Prop where
  | node (f : FolderData)
      (hcount : f.photoCount = f.photos.length + subCounts f.subfolders)
      (hsize : f.totalSize = photosSize f.photos + subSizes f.subfolders)
      (hsub : ∀ p ∈ f.subfolders, AggOk p.2) : AggOk f

/-- A local file as sent to the sync endpoints (only the fields the
handlers read: `file.name` for progress labels and `file.relativePath` for
the membership test and the computed key; the remaining metadata is spread
through unchanged and carried here inside this record). -/
structure LocalFile where
  name : String
  relativePath : String
deriving DecidableEq, Repr

/-- One entry of the syncStatus map: the original file metadata (the JS
spread), the presence flag, and the computed remote key. -/
structure SyncEntry where
  file : LocalFile
  inS3 : Bool
  s3Key : String
deriving DecidableEq, Repr

/-- The do/while pagination loop of both sync endpoints: each iteration
lists one page of remote keys, strips the base prefix from each and adds
it to the accumulated set, continuing while a NextContinuationToken is
present.  The remote store is modelled as the finite sequence of pages it
returns; the token is present exactly while pages remain.  The JS `Set` is
modelled as the insertion-ordered list of added keys (`has` is list
membership). -/
def gatherS3Objects (base : String) (pages : List (List String))
    (acc : List String) : List String :=
  match pages with
  | [] => acc
  | page :: rest =>
    gatherS3Objects base rest (acc ++ page.map (stripBase base))

/-- The comparison loop shared by both sync endpoints: for each local file,
in order, record presence (`s3Objects.has(file.relativePath)`) and the key
`baseFolderName/relativePath`.  In the tracked endpoint the same loop also
calls `job.updateProgress(i + 1, file.name)`; the 10 ms cooperative pause
taken every 10 files does not change any state and is omitted. -/
def syncLoop (base : String) (s3Objects : List String)
    (files : List LocalFile) (i : Nat) (job : Job)
    (acc : List (String × SyncEntry)) : Job × List (String × SyncEntry) :=
  match files with
  | [] => (job, acc)
  | f :: rest =>
    let entry : SyncEntry :=
      { file := f
        inS3 := decide (f.relativePath ∈ s3Objects)
        s3Key := base ++ "/" ++ f.relativePath }
    let job := job.updateProgress (i + 1) (some f.name) none
    syncLoop base s3Objects rest (i + 1) job (acc ++ [(f.relativePath, entry)])

/-- The /api/check-sync-status-simple endpoint: assemble the full stripped
remote key set page by page, then build the syncStatus map over the local
files. -/
def checkSyncStatusSimple (homedir : String) (cfg : Config)
    (pages : List (List String)) (localFiles : List LocalFile) :
    List (String × SyncEntry) :=
  let base := baseFolderName homedir cfg
  let s3Objects := gatherS3Objects base pages []
  localFiles.map fun f =>
    (f.relativePath,
     { file := f
       inS3 := decide (f.relativePath ∈ s3Objects)
       s3Key := base ++ "/" ++ f.relativePath })

/-- A per-file input to the upload loop.  `path` is the absolute path from
the request, `filename` its basename and `relativePath` the path relative
to the configured root, both computed by the path module and carried here
as data.  `size` is the stat size, `now` the Date.now() sample taken for
this file, and `transferError` is `some message` when the file's stat,
read or put fails (the body of the per-file try block throws), `none` when
the transfer succeeds. -/
structure FileSpec where
  path : String
  filename : String
  relativePath : String
  size : Nat
  now : Nat
  transferError : Option String
deriving DecidableEq, Repr

/-- One entry of the results list of /api/upload-folder: a success records
the path, key and relative path; a failure records the path and the error
message. -/
structure TransferOutcome where
  success : Bool
  path : String
  s3Key : Option String
  relativePath : Option String
  error : Option String
deriving DecidableEq, Repr

/-- The per-file loop of /api/upload-folder.  Each iteration marks the
current item with `updateProgress(i, filename)`, selects the buffered or
streaming path by size (the choice affects only the transfer mechanism and
transient byte-level progress labels, not the resulting job counters or
outcome), and either pushes a success outcome and calls
`updateProgress(i + 1, filename)`, or — when the try body throws — pushes
a failure outcome and calls `updateProgress(i + 1, filename, error)` and
continues with the next file.  The file-level success broadcast carries no
job or outcome state. -/
def uploadLoop (homedir : String) (cfg : Config) (preserveStructure : Bool)
    (files : List FileSpec) (i : Nat) (job : Job)
    (results : List TransferOutcome) : Job × List TransferOutcome :=
  match files with
  | [] => (job, results)
  | f :: rest =>
    let job := job.updateProgress i (some f.filename) none
    let _strategy := selectStrategy f.size
    match f.transferError with
    | none =>
      let key := s3KeyUploadFolder homedir cfg preserveStructure f.now
        f.relativePath f.filename
      let results := results ++
        [{ success := true, path := f.path, s3Key := some key,
           relativePath := some f.relativePath, error := none }]
      let job := job.updateProgress (i + 1) (some f.filename) none
      uploadLoop homedir cfg preserveStructure rest (i + 1) job results
    | some e =>
      let results := results ++
        [{ success := false, path := f.path, s3Key := none,
           relativePath := none, error := some e }]
      let job := job.updateProgress (i + 1) (some f.filename) (some e)
      uploadLoop homedir cfg preserveStructure rest (i + 1) job results

/-- The happy path of /api/upload-folder after the job has been created:
run the per-file loop from index 0 and then call `job.complete()`
unconditionally. -/
def runUploadBatch (homedir : String) (cfg : Config)
    (preserveStructure : Bool) (files : List FileSpec) (freshId : String) :
    Job × List TransferOutcome :=
  let job := Job.new freshId "upload" files.length
  let (job, results) := uploadLoop homedir cfg preserveStructure files 0 job []
  (job.complete, results)

/-- A registry (the global `jobs` Map) as an association list. -/
def Registry := List (String × Job)

/-- jobs.get(jobId) followed by mutation: replace the named job. -/
def setJob (reg : List (String × Job)) (jobId : String) (j : Job) :
    List (String × Job) :=
  reg.map fun p => if p.1 = jobId then (p.1, j) else p

/-- The catch block shared (verbatim) by /api/upload-folder and
/api/check-sync-status: it reads `req.body.jobId` — the client-supplied
field, not the locally generated job id — and calls `fail` on that job
only when the field is present and names a registered job. -/
def handlerCatch (reg : List (String × Job)) (bodyJobId : Option String)
    (errMsg : String) : List (String × Job) :=
  match bodyJobId with
  | none => reg
  | some jid =>
    match reg.lookup jid with
    | none => reg
    | some j => setJob reg jid (j.fail errMsg)

/-- A cleanup timer: `setTimeout(() => jobs.delete(jobId), delayMs)`. -/
structure TimerEvent where
  delayMs : Nat
  deleteJobId : String
deriving DecidableEq, Repr

/-- The /api/upload-folder handler, from job creation onward.  `reg0` is
the registry contents before this request, `bodyJobId` the (normally
absent) jobId field of the request body, and `unexpected` is
`some message` when an unexpected error is thrown outside the per-file
loop (after the job id has already been sent to the caller).  On the happy
path the loop runs, the job is completed and one 30000 ms deletion timer
is scheduled for it; on the error path the catch block runs and no timer
is scheduled. -/
def uploadFolderHandler (reg0 : List (String × Job)) (homedir : String)
    (cfg : Config) (preserveStructure : Bool) (files : List FileSpec)
    (freshId : String) (bodyJobId : Option String)
    (unexpected : Option String) :
    List (String × Job) × List TimerEvent × List TransferOutcome :=
  let job := Job.new freshId "upload" files.length
  let reg := reg0 ++ [(freshId, job)]
  match unexpected with
  | some e => (handlerCatch reg bodyJobId e, [], [])
  | none =>
    let (job, results) := runUploadBatch homedir cfg preserveStructure files freshId
    (setJob reg freshId job, [⟨30000, freshId⟩], results)

/-- The /api/check-sync-status handler, from job creation onward, with the
same catch and cleanup behavior as the upload handler: on the happy path
the full remote key set is gathered, the comparison loop runs under the
job, the job is completed and one 30000 ms deletion timer is scheduled; on
the error path the catch block runs and no timer is scheduled. -/
def checkSyncStatusHandler (reg0 : List (String × Job)) (homedir : String)
    (cfg : Config) (pages : List (List String)) (files : List LocalFile)
    (freshId : String) (bodyJobId : Option String)
    (unexpected : Option String) :
    List (String × Job) × List TimerEvent × List (String × SyncEntry) :=
  let job := Job.new freshId "sync_check" files.length
  let reg := reg0 ++ [(freshId, job)]
  match unexpected with
  | some e => (handlerCatch reg bodyJobId e, [], [])
  | none =>
    let base := baseFolderName homedir cfg
    let s3Objects := gatherS3Objects base pages []
    let (job, syncStatus) := syncLoop base s3Objects files 0 job []
    (setJob reg freshId job.complete, [⟨30000, freshId⟩], syncStatus)

/-! Helper lemmas. -/

@[simp] lemma updateProgress_status (j : Job) (k : Nat) (item err : Option String) :
    (j.updateProgress k item err).status = j.status := rfl

@[simp] lemma updateProgress_totalItems (j : Job) (k : Nat) (item err : Option String) :
    (j.updateProgress k item err).totalItems = j.totalItems := rfl

@[simp] lemma updateProgress_completedItems (j : Job) (k : Nat) (item err : Option String) :
    (j.updateProgress k item err).completedItems = k := rfl

@[simp] lemma updateProgress_failedItems (j : Job) (k : Nat) (item err : Option String) :
    (j.updateProgress k item err).failedItems =
      j.failedItems + (if err.isSome then 1 else 0) := rfl

@[simp] lemma updateProgress_errors (j : Job) (k : Nat) (item err : Option String) :
    (j.updateProgress k item err).errors = j.errors ++ err.toList := rfl

@[simp] lemma complete_status (j : Job) : j.complete.status = .completed := rfl

@[simp] lemma complete_completedItems (j : Job) :
    j.complete.completedItems = j.completedItems := rfl

@[simp] lemma complete_failedItems (j : Job) :
    j.complete.failedItems = j.failedItems := rfl

@[simp] lemma complete_totalItems (j : Job) :
    j.complete.totalItems = j.totalItems := rfl

@[simp] lemma complete_errors (j : Job) : j.complete.errors = j.errors := rfl

@[simp] lemma fail_status (j : Job) (e : String) : (j.fail e).status = .failed := rfl

@[simp] lemma fail_errors (j : Job) (e : String) :
    (j.fail e).errors = j.errors ++ [e] := rfl

/-- The per-file outcome that the upload loop records for one file,
read off the source: a success outcome with the computed key, or a failure
outcome with the caught error message. -/
def expectedOutcome (homedir : String) (cfg : Config)
    (preserveStructure : Bool) (f : FileSpec) : TransferOutcome :=
  match f.transferError with
  | none =>
    { success := true, path := f.path,
      s3Key := some (s3KeyUploadFolder homedir cfg preserveStructure f.now
        f.relativePath f.filename),
      relativePath := some f.relativePath, error := none }
  | some e =>
    { success := false, path := f.path, s3Key := none,
      relativePath := none, error := some e }

lemma uploadLoop_run (homedir : String) (cfg : Config) (pv : Bool) :
    ∀ (files : List FileSpec) (i : Nat) (job : Job)
      (results : List TransferOutcome),
    (uploadLoop homedir cfg pv files i job results).1.status = job.status ∧
    (uploadLoop homedir cfg pv files i job results).1.totalItems = job.totalItems ∧
    (uploadLoop homedir cfg pv files i job results).1.completedItems =
      (if files.isEmpty then job.completedItems else i + files.length) ∧
    (uploadLoop homedir cfg pv files i job results).1.failedItems =
      job.failedItems + (files.filter (fun f => f.transferError.isSome)).length ∧
    (uploadLoop homedir cfg pv files i job results).1.errors =
      job.errors ++ files.filterMap FileSpec.transferError ∧
    (uploadLoop homedir cfg pv files i job results).2 =
      results ++ files.map (expectedOutcome homedir cfg pv) := by
  intro files
  induction files with
  | nil => intro i job results; simp [uploadLoop]
  | cons f rest ih =>
    intro i job results
    cases hfe : f.transferError with
    | none =>
      have h := ih (i + 1)
        ((job.updateProgress i (some f.filename) none).updateProgress (i + 1)
          (some f.filename) none)
        (results ++ [⟨true, f.path,
          some (s3KeyUploadFolder homedir cfg pv f.now f.relativePath
            f.filename), some f.relativePath, none⟩])
      obtain ⟨h1, h2, h3, h4, h5, h6⟩ := h
      refine ⟨?_, ?_, ?_, ?_, ?_, ?_⟩ <;>
        simp only [uploadLoop, hfe, h1, h2, h3, h4, h5, h6,
          updateProgress_status, updateProgress_totalItems,
          updateProgress_completedItems, updateProgress_failedItems,
          updateProgress_errors, expectedOutcome, List.filter_cons,
          List.filterMap_cons, List.map_cons, List.isEmpty_cons,
          Option.isSome_none, Option.toList_none] <;>
        simp [hfe]
      all_goals try omega
      all_goals (rcases rest with _ | ⟨g, gs⟩ <;> simp <;> omega)
    | some e =>
      have h := ih (i + 1)
        ((job.updateProgress i (some f.filename) none).updateProgress (i + 1)
          (some f.filename) (some e))
        (results ++ [⟨false, f.path, none, none, some e⟩])
      obtain ⟨h1, h2, h3, h4, h5, h6⟩ := h
      refine ⟨?_, ?_, ?_, ?_, ?_, ?_⟩ <;>
        simp only [uploadLoop, hfe, h1, h2, h3, h4, h5, h6,
          updateProgress_status, updateProgress_totalItems,
          updateProgress_completedItems, updateProgress_failedItems,
          updateProgress_errors, expectedOutcome, List.filter_cons,
          List.filterMap_cons, List.map_cons, List.isEmpty_cons] <;>
        simp [hfe]
      all_goals try omega
      all_goals (rcases rest with _ | ⟨g, gs⟩ <;> simp <;> omega)

lemma applyOp_status_not_running (j : Job) (op : JobOp)
    (h : j.status ≠ JobStatus.running) :
    (j.applyOp op).status ≠ JobStatus.running := by
  cases op with
  | update k item err => simpa [Job.applyOp] using h
  | complete => simp [Job.applyOp, Job.complete]
  | fail e => simp [Job.applyOp, Job.fail]

lemma applyOp_errors_grow (j : Job) (op : JobOp) :
    ∃ t, (j.applyOp op).errors = j.errors ++ t := by
  cases op with
  | update k item err => exact ⟨err.toList, rfl⟩
  | complete => exact ⟨[], by simp [Job.applyOp]⟩
  | fail e => exact ⟨[e], rfl⟩

@[simp] lemma node_name (n p : String) (ph : List Photo)
    (sf : List (String × FolderData)) (c s : Nat) :
    (FolderData.node n p ph sf c s).name = n := rfl

@[simp] lemma node_path (n p : String) (ph : List Photo)
    (sf : List (String × FolderData)) (c s : Nat) :
    (FolderData.node n p ph sf c s).path = p := rfl

@[simp] lemma node_photos (n p : String) (ph : List Photo)
    (sf : List (String × FolderData)) (c s : Nat) :
    (FolderData.node n p ph sf c s).photos = ph := rfl

@[simp] lemma node_subfolders (n p : String) (ph : List Photo)
    (sf : List (String × FolderData)) (c s : Nat) :
    (FolderData.node n p ph sf c s).subfolders = sf := rfl

@[simp] lemma node_photoCount (n p : String) (ph : List Photo)
    (sf : List (String × FolderData)) (c s : Nat) :
    (FolderData.node n p ph sf c s).photoCount = c := rfl

@[simp] lemma node_totalSize (n p : String) (ph : List Photo)
    (sf : List (String × FolderData)) (c s : Nat) :
    (FolderData.node n p ph sf c s).totalSize = s := rfl

@[simp] lemma subCounts_append (l1 l2 : List (String × FolderData)) :
    subCounts (l1 ++ l2) = subCounts l1 + subCounts l2 := by
  simp [subCounts]

@[simp] lemma subSizes_append (l1 l2 : List (String × FolderData)) :
    subSizes (l1 ++ l2) = subSizes l1 + subSizes l2 := by
  simp [subSizes]

@[simp] lemma photosSize_append (l1 l2 : List Photo) :
    photosSize (l1 ++ l2) = photosSize l1 + photosSize l2 := by
  simp [photosSize]

lemma scanItems_aggOk (items : List FsTree) (acc : FolderData) (rp : String) :
    acc.photoCount = acc.photos.length + subCounts acc.subfolders →
    acc.totalSize = photosSize acc.photos + subSizes acc.subfolders →
    (∀ p ∈ acc.subfolders, AggOk p.2) →
    AggOk (scanItems items acc rp) := by
  induction items, acc, rp using scanItems.induct with
  | case1 acc rp =>
    intro h1 h2 h3
    rw [scanItems]
    exact AggOk.node acc h1 h2 h3
  | case2 acc rp dname children rest childRel subfolder ihc ihc2 ihr =>
    intro h1 h2 h3
    rw [scanItems]
    refine ihr ?_ ?_ ?_
    · simp [subCounts, h1]
      omega
    · simp [subSizes, h2]
      omega
    · intro p hp
      simp only [node_subfolders, List.mem_append, List.mem_singleton] at hp
      rcases hp with hp | hp
      · exact h3 p hp
      · subst hp
        exact ihc (by simp [emptyFolder, subCounts])
          (by simp [emptyFolder, subSizes, photosSize]) (by simp [emptyFolder])
  | case3 acc rp fname fsize rest himg ih =>
    intro h1 h2 h3
    rw [scanItems]
    simp only [himg, if_true]
    refine ih ?_ ?_ ?_
    · simp [h1]; omega
    · simp [photosSize, h2]; omega
    · simpa using h3
  | case4 acc rp fname fsize rest himg ih =>
    intro h1 h2 h3
    rw [scanItems]
    simp only [himg, if_false]
    exact ih h1 h2 h3

lemma data_ne_nil (p : String) (h : p ≠ "") : p.data ≠ [] := by
  intro hd
  apply h
  cases p
  simp_all

lemma stripBase_append (b s : String) : stripBase b (b ++ "/" ++ s) = s := by
  unfold stripBase
  have hd : (b ++ "/" ++ s).data = (b ++ "/").data ++ s.data := by
    simp [String.data_append]
  simp only [hd, List.take_left, List.drop_left, if_true]

lemma digitChar_ne_slash (m : Nat) : Nat.digitChar m ≠ '/' := by
  by_cases h : m < 16
  · interval_cases m <;> decide
  · have h0 : ¬ (m = 0) := by omega
    have h1 : ¬ (m = 1) := by omega
    have h2 : ¬ (m = 2) := by omega
    have h3 : ¬ (m = 3) := by omega
    have h4 : ¬ (m = 4) := by omega
    have h5 : ¬ (m = 5) := by omega
    have h6 : ¬ (m = 6) := by omega
    have h7 : ¬ (m = 7) := by omega
    have h8 : ¬ (m = 8) := by omega
    have h9 : ¬ (m = 9) := by omega
    have h10 : ¬ (m = 10) := by omega
    have h11 : ¬ (m = 11) := by omega
    have h12 : ¬ (m = 12) := by omega
    have h13 : ¬ (m = 13) := by omega
    have h14 : ¬ (m = 14) := by omega
    have h15 : ¬ (m = 15) := by omega
    simp only [Nat.digitChar, h0, h1, h2, h3, h4, h5, h6, h7, h8, h9, h10,
      h11, h12, h13, h14, h15, if_false]
    decide

lemma toDigitsCore_ne_slash (b : Nat) : ∀ (fuel n : Nat) (ds : List Char),
    (∀ c ∈ ds, c ≠ '/') → ∀ c ∈ Nat.toDigitsCore b fuel n ds, c ≠ '/' := by
  intro fuel
  induction fuel with
  | zero =>
    intro n ds h c hc
    rw [Nat.toDigitsCore] at hc
    exact h c hc
  | succ fuel ih =>
    intro n ds h c hc
    rw [Nat.toDigitsCore] at hc
    have hds : ∀ x ∈ Nat.digitChar (n % b) :: ds, x ≠ '/' := by
      intro x hx
      rcases List.mem_cons.mp hx with hx | hx
      · subst hx; exact digitChar_ne_slash (n % b)
      · exact h x hx
    split at hc
    · exact hds c hc
    · exact ih (n / b) (Nat.digitChar (n % b) :: ds) hds c hc

lemma repr_ne_slash (n : Nat) : '/' ∉ (Nat.repr n).data := by
  intro hmem
  exact toDigitsCore_ne_slash 10 (n + 1) n [] (by simp) '/' hmem rfl

lemma basenamePosix_no_slash (p : String) (hne : p ≠ "")
    (hlast : p.data.getLast? ≠ some '/') : '/' ∉ (basenamePosix p).data := by
  rcases hrl : p.data.reverse with _ | ⟨c, t⟩
  · exact absurd (List.reverse_eq_nil_iff.mp hrl) (data_ne_nil p hne)
  · have hc : ¬ (c = '/') := by
      intro hcc
      apply hlast
      rw [← List.head?_reverse, hrl, hcc]
      rfl
    simp only [basenamePosix, hrl, List.dropWhile_cons, hc, decide_eq_true_eq,
      if_false, List.isEmpty_cons, Bool.false_eq_true]
    intro hmem
    rw [List.mem_reverse] at hmem
    have h2 := List.mem_takeWhile_imp hmem
    simp at h2

lemma basenamePosix_of_no_slash (p : String) (hne : p ≠ "")
    (hnos : '/' ∉ p.data) : basenamePosix p = p := by
  rcases hrl : p.data.reverse with _ | ⟨c, t⟩
  · exact absurd (List.reverse_eq_nil_iff.mp hrl) (data_ne_nil p hne)
  · have hmemc : c ∈ p.data := by
      rw [← List.mem_reverse, hrl]; exact List.mem_cons_self c t
    have hc : ¬ (c = '/') := fun hcc => hnos (hcc ▸ hmemc)
    have hall : ∀ x ∈ c :: t, decide (x ≠ '/') = true := by
      intro x hx
      have hxp : x ∈ p.data := by rw [← List.mem_reverse, hrl]; exact hx
      simp only [decide_eq_true_eq]
      exact fun hxx => hnos (hxx ▸ hxp)
    simp only [basenamePosix, hrl, List.dropWhile_cons, hc, decide_eq_true_eq,
      if_false, List.isEmpty_cons, Bool.false_eq_true]
    rw [List.takeWhile_eq_self_iff.mpr hall, ← hrl, List.reverse_reverse]

lemma replaceBackslashes_of_clean (s : String) (h : '\\' ∉ s.data) :
    replaceBackslashes s = s := by
  unfold replaceBackslashes
  have hmap : s.data.map (fun c => if c = '\\' then '/' else c) = s.data.map id := by
    apply List.map_congr_left
    intro a ha
    have hne : ¬ (a = '\\') := fun hc => h (hc ▸ ha)
    simp [hne]
  rw [hmap, List.map_id]

lemma gatherS3Objects_eq (base : String) :
    ∀ (pages : List (List String)) (acc : List String),
    gatherS3Objects base pages acc =
      acc ++ (pages.map (fun page => page.map (stripBase base))).join := by
  intro pages
  induction pages with
  | nil => intro acc; simp [gatherS3Objects]
  | cons page rest ih =>
    intro acc
    rw [gatherS3Objects, ih]
    simp

lemma syncLoop_run (base : String) (s3Objects : List String) :
    ∀ (files : List LocalFile) (i : Nat) (job : Job)
      (acc : List (String × SyncEntry)),
    (syncLoop base s3Objects files i job acc).2 =
      acc ++ files.map (fun f => (f.relativePath,
        ⟨f, decide (f.relativePath ∈ s3Objects), base ++ "/" ++ f.relativePath⟩)) ∧
    (syncLoop base s3Objects files i job acc).1.status = job.status := by
  intro files
  induction files with
  | nil => intro i job acc; simp [syncLoop]
  | cons f rest ih =>
    intro i job acc
    obtain ⟨ih1, ih2⟩ := ih (i + 1) (job.updateProgress (i + 1) (some f.name) none)
      (acc ++ [(f.relativePath,
        ⟨f, decide (f.relativePath ∈ s3Objects), base ++ "/" ++ f.relativePath⟩)])
    constructor
    · rw [syncLoop, ih1]
      simp
    · rw [syncLoop, ih2]
      simp

lemma checkSyncStatusSimple_eq (homedir : String) (cfg : Config)
    (pages : List (List String)) (files : List LocalFile) :
    checkSyncStatusSimple homedir cfg pages files =
      files.map (fun f => (f.relativePath,
        ⟨f, decide (f.relativePath ∈
          gatherS3Objects (baseFolderName homedir cfg) pages []),
         baseFolderName homedir cfg ++ "/" ++ f.relativePath⟩)) := rfl

lemma checkSyncStatusHandler_syncStatus (reg0 : List (String × Job))
    (homedir : String) (cfg : Config) (pages : List (List String))
    (files : List LocalFile) (freshId : String) (bodyJobId : Option String) :
    (checkSyncStatusHandler reg0 homedir cfg pages files freshId bodyJobId none).2.2 =
      files.map (fun f => (f.relativePath,
        ⟨f, decide (f.relativePath ∈
          gatherS3Objects (baseFolderName homedir cfg) pages []),
         baseFolderName homedir cfg ++ "/" ++ f.relativePath⟩)) := by
  obtain ⟨h1, _⟩ := syncLoop_run (baseFolderName homedir cfg)
    (gatherS3Objects (baseFolderName homedir cfg) pages []) files 0
    (Job.new freshId "sync_check" files.length) []
  rcases hsl : syncLoop (baseFolderName homedir cfg)
    (gatherS3Objects (baseFolderName homedir cfg) pages []) files 0
    (Job.new freshId "sync_check" files.length) [] with ⟨jb, st⟩
  rw [hsl] at h1
  simp only [checkSyncStatusHandler, hsl]
  simpa using h1

lemma runUploadBatch_status (homedir : String) (cfg : Config) (pv : Bool)
    (files : List FileSpec) (freshId : String) :
    (runUploadBatch homedir cfg pv files freshId).1.status =
      JobStatus.completed := by
  rcases hul : uploadLoop homedir cfg pv files 0
    (Job.new freshId "upload" files.length) [] with ⟨jb, res⟩
  simp [runUploadBatch, hul]

lemma lookup_setJob_append (reg0 : List (String × Job)) (freshId : String)
    (jobNew j : Job) (h : reg0.lookup freshId = none) :
    (setJob (reg0 ++ [(freshId, jobNew)]) freshId j).lookup freshId = some j := by
  induction reg0 with
  | nil =>
    simp only [setJob, List.nil_append, List.map_cons, List.map_nil, if_pos rfl]
    simp [List.lookup]
  | cons p rest ih =>
    by_cases hp : p.1 = freshId
    · rw [show p = (p.1, p.2) from rfl, List.lookup_cons] at h
      simp [hp] at h
    · have hbeq : (freshId == p.1) = false :=
        beq_eq_false_iff_ne.mpr (fun hh => hp hh.symm)
      rw [show p = (p.1, p.2) from rfl, List.lookup_cons] at h
      rw [hbeq] at h
      have hr := ih h
      simp only [setJob, List.cons_append, List.map_cons, hp, if_false]
      rw [List.lookup_cons, hbeq]
      simpa [setJob] using hr

/-! Claim theorems. -/

/-- C1: in a batch upload, a single file's transfer failure never aborts
the batch: the final job is unconditionally `completed` (never `failed`),
its completed-item counter equals the number of files, its failed-item
counter counts exactly the failing files whose error messages are appended
to the job's error list, and the outcome list has one entry per file, each
failed file's outcome recording its error. -/
theorem upload_batch_partial_failure (homedir : String) (cfg : Config)
    (pv : Bool) (files : List FileSpec) (freshId : String) :
    (runUploadBatch homedir cfg pv files freshId).1.status = JobStatus.completed ∧
    (runUploadBatch homedir cfg pv files freshId).1.completedItems = files.length ∧
    (runUploadBatch homedir cfg pv files freshId).1.failedItems =
      (files.filter (fun f => f.transferError.isSome)).length ∧
    (runUploadBatch homedir cfg pv files freshId).1.errors =
      files.filterMap FileSpec.transferError ∧
    (runUploadBatch homedir cfg pv files freshId).2.length = files.length ∧
    (runUploadBatch homedir cfg pv files freshId).2 =
      files.map (expectedOutcome homedir cfg pv) := by
  obtain ⟨h1, h2, h3, h4, h5, h6⟩ := uploadLoop_run homedir cfg pv files 0
    (Job.new freshId "upload" files.length) []
  rcases he : uploadLoop homedir cfg pv files 0
    (Job.new freshId "upload" files.length) [] with ⟨jb, res⟩
  rw [he] at h1 h3 h4 h5 h6
  simp only [Job.new] at h3 h4 h5
  refine ⟨?_, ?_, ?_, ?_, ?_, ?_⟩ <;>
    simp [runUploadBatch, he, h1, h4, h5, h6]
  · rcases files with _ | ⟨f, fs⟩ <;> simp_all

/-- C3: every node of the tree produced by a scan, the root included,
satisfies the aggregation invariant: its aggregated photo count equals the
number of its own directly contained files plus the sum of its children's
aggregated counts, and its aggregated size equals its own files' total
size plus the sum of its children's aggregated sizes. -/
theorem scan_aggregation_invariant (dirName : String) (items : List FsTree)
    (relativePath : String) :
    AggOk (scanDirectory dirName items relativePath) := by
  rw [scanDirectory]
  exact scanItems_aggOk items (emptyFolder dirName relativePath) relativePath
    (by simp [emptyFolder, subCounts]) (by simp [emptyFolder, subSizes, photosSize])
    (by simp [emptyFolder])

/-- C2 counterexample: the claim says progress is the floor of
`k / n * 100`, but after two of three items the code's progress is 67
(Math.round) while the floor is 66. -/
theorem progress_not_floor_at_two_thirds :
    ((Job.new "j" "upload" 3).updateProgress 2 none none).progress = some 67 ∧
    (⌊((2 : ℚ) / 3) * 100⌋ : ℤ) = 66 := by
  constructor
  · show (if (3 : Nat) = 0 then none else
      some (jsRound ((2 : ℚ) / ((3 : Nat) : ℚ) * 100))) = some 67
    norm_num [jsRound]
  · norm_num

/-- C2 (amended): for a job with positive total, updateProgress sets the
derived percentage to `Math.round(k / n * 100)` (round half up), not the
floor; for a zero total the division makes progress a non-finite JS number
(modelled `none`) — neither 100 nor a no-op. -/
theorem updateProgress_percentage (j : Job) (k : Nat)
    (item err : Option String) :
    (0 < j.totalItems →
      (j.updateProgress k item err).progress =
        some (jsRound ((k : ℚ) / (j.totalItems : ℚ) * 100))) ∧
    (j.totalItems = 0 → (j.updateProgress k item err).progress = none) := by
  refine ⟨fun h => ?_, fun h => ?_⟩
  · have hne : j.totalItems ≠ 0 := by omega
    simp [Job.updateProgress, hne]
  · simp [Job.updateProgress, h]

/-- C2 witness: the amended statement applied to a three-item job after
two completed items. -/
theorem updateProgress_percentage_witness :
    0 < (Job.new "j" "upload" 3).totalItems ∧
    ((Job.new "j" "upload" 3).updateProgress 2 none none).progress =
      some (jsRound ((2 : ℚ) / (((Job.new "j" "upload" 3).totalItems : Nat) : ℚ) * 100)) :=
  ⟨by decide, (updateProgress_percentage (Job.new "j" "upload" 3) 2 none none).1 (by decide)⟩

/-- C5 counterexample: the Job methods carry no terminal-state guard, so
calling fail() on a completed job moves its status away from `completed`,
contradicting the claim that a terminal status never changes under any
subsequent registry operation. -/
theorem terminal_status_overwritten :
    (Job.new "j" "upload" 1).complete.status = JobStatus.completed ∧
    ((Job.new "j" "upload" 1).complete.fail "boom").status ≠ JobStatus.completed := by
  constructor
  · rfl
  · simp [Job.fail]

/-- C5 (amended): under any sequence of registry operations a job that has
left `running` never returns to it (though an unguarded complete()/fail()
can still flip one terminal value to the other), and the error list only
ever grows, under every operation. -/
theorem terminal_stays_terminal_errors_monotone (j : Job) (ops : List JobOp) :
    (j.status ≠ JobStatus.running → (j.runOps ops).status ≠ JobStatus.running) ∧
    (∃ t, (j.runOps ops).errors = j.errors ++ t) := by
  induction ops generalizing j with
  | nil => exact ⟨fun h => h, [], by simp [Job.runOps]⟩
  | cons op rest ih =>
    obtain ⟨t1, ht1⟩ := applyOp_errors_grow j op
    obtain ⟨hstat, t2, ht2⟩ := ih (j.applyOp op)
    refine ⟨fun h => ?_, ⟨t1 ++ t2, ?_⟩⟩
    · simpa [Job.runOps] using hstat (applyOp_status_not_running j op h)
    · simp only [Job.runOps, List.foldl_cons] at ht2 ⊢
      rw [ht2, ht1, List.append_assoc]

/-- C5 witness: the amended statement applied to a completed one-item job
and a subsequent fail() call. -/
theorem terminal_stays_terminal_witness :
    (Job.new "j" "upload" 1).complete.status ≠ JobStatus.running ∧
    ((Job.new "j" "upload" 1).complete.runOps [JobOp.fail "x"]).status ≠
      JobStatus.running :=
  ⟨by decide,
   (terminal_stays_terminal_errors_monotone (Job.new "j" "upload" 1).complete
     [JobOp.fail "x"]).1 (by decide)⟩

/-- C4: in both reconciliation modes (simple and job-tracked) every local
file's presence flag is the membership of its relative path in the set of
stripped keys accumulated from all pages of the remote listing: the result
map is pointwise determined by the union of every page, so no file's flag
is derived from a partial page; and every key of every page reaches the
assembled set. -/
theorem sync_presence_from_full_listing (homedir : String) (cfg : Config)
    (pages : List (List String)) (files : List LocalFile)
    (reg0 : List (String × Job)) (freshId : String)
    (bodyJobId : Option String) :
    (checkSyncStatusSimple homedir cfg pages files =
      files.map (fun f => (f.relativePath,
        ⟨f, decide (f.relativePath ∈
          (pages.map (fun page =>
            page.map (stripBase (baseFolderName homedir cfg)))).join),
         baseFolderName homedir cfg ++ "/" ++ f.relativePath⟩))) ∧
    ((checkSyncStatusHandler reg0 homedir cfg pages files freshId
        bodyJobId none).2.2 =
      files.map (fun f => (f.relativePath,
        ⟨f, decide (f.relativePath ∈
          (pages.map (fun page =>
            page.map (stripBase (baseFolderName homedir cfg)))).join),
         baseFolderName homedir cfg ++ "/" ++ f.relativePath⟩))) ∧
    (∀ page ∈ pages, ∀ k ∈ page,
      stripBase (baseFolderName homedir cfg) k ∈
        gatherS3Objects (baseFolderName homedir cfg) pages []) := by
  refine ⟨?_, ?_, ?_⟩
  · rw [checkSyncStatusSimple_eq, gatherS3Objects_eq]
    simp
  · rw [checkSyncStatusHandler_syncStatus, gatherS3Objects_eq]
    simp
  · intro page hp k hk
    rw [gatherS3Objects_eq]
    simp only [List.nil_append]
    exact List.mem_join.mpr ⟨page.map (stripBase (baseFolderName homedir cfg)),
      List.mem_map_of_mem _ hp, List.mem_map_of_mem _ hk⟩

/-- C4 witness: the page-exhaustiveness conjunct applied to a two-page
listing, with both membership hypotheses discharged on the second page. -/
theorem sync_presence_from_full_listing_witness :
    ["photos/b.jpg"] ∈ ([["photos/a.jpg"], ["photos/b.jpg"]] : List (List String)) ∧
    stripBase (baseFolderName "/home/u" ⟨"~/photos"⟩) "photos/b.jpg" ∈
      gatherS3Objects (baseFolderName "/home/u" ⟨"~/photos"⟩)
        [["photos/a.jpg"], ["photos/b.jpg"]] [] :=
  ⟨by simp,
   (sync_presence_from_full_listing "/home/u" ⟨"~/photos"⟩
     [["photos/a.jpg"], ["photos/b.jpg"]] [] [] "job-1" none).2.2
     ["photos/b.jpg"] (by simp) "photos/b.jpg" (by simp)⟩

/-- C7 counterexample: for a relative path containing a backslash (a legal
character in POSIX file names) the structure-preserving destination key is
not `baseFolderName/relativePath`: the code first replaces every backslash
with a forward slash. -/
theorem upload_key_not_bit_exact :
    s3KeyUploadFolder "/home/u" ⟨"~/photos"⟩ true 0 "a\\b.jpg" "a\\b.jpg" ≠
      baseFolderName "/home/u" ⟨"~/photos"⟩ ++ "/" ++ "a\\b.jpg" := by
  decide

/-- C7 (amended): the destination key is
`baseFolderName/relativePath-with-backslashes-normalized-to-slashes` when
structure is preserved — equal to `baseFolderName/relativePath` exactly
when the relative path contains no backslash — and
`baseFolderName/<timestamp>_<filename>` otherwise, where baseFolderName is
`path.basename` of the tilde-expanded configured root folder. -/
theorem upload_key_scheme (homedir : String) (cfg : Config) (now : Nat)
    (relPath fname : String) :
    ('\\' ∉ relPath.data →
      s3KeyUploadFolder homedir cfg true now relPath fname =
        baseFolderName homedir cfg ++ "/" ++ relPath) ∧
    s3KeyUploadFolder homedir cfg false now relPath fname =
      baseFolderName homedir cfg ++ "/" ++ Nat.repr now ++ "_" ++ fname := by
  constructor
  · intro h
    simp [s3KeyUploadFolder, replaceBackslashes_of_clean relPath h]
  · rfl

/-- C7 witness: the amended preserved-structure clause applied to a
backslash-free relative path. -/
theorem upload_key_scheme_witness :
    '\\' ∉ ("2024/a.jpg" : String).data ∧
    s3KeyUploadFolder "/home/u" ⟨"~/photos"⟩ true 0 "2024/a.jpg" "a.jpg" =
      baseFolderName "/home/u" ⟨"~/photos"⟩ ++ "/" ++ "2024/a.jpg" :=
  ⟨by decide,
   (upload_key_scheme "/home/u" ⟨"~/photos"⟩ 0 "2024/a.jpg" "a.jpg").1 (by decide)⟩

/-- C8: evaluating both tracked handlers at a request whose body carries no
jobId field (the normal client request) when an unexpected error is thrown
after the job id was returned: the catch block reads `req.body.jobId`
instead of the handler's own fresh job id, so the created job is left in
status `running` forever — it is never transitioned to `failed`, so the
failure promised by the claim never reaches the event stream. -/
theorem unexpected_error_leaves_job_running :
    ((uploadFolderHandler [] "/home/u" ⟨"~/photos"⟩ true [] "job-1" none
        (some "listing failed")).1.lookup "job-1").map Job.status =
      some JobStatus.running ∧
    ((checkSyncStatusHandler [] "/home/u" ⟨"~/photos"⟩ [] [] "job-2" none
        (some "listing failed")).1.lookup "job-2").map Job.status =
      some JobStatus.running := by
  constructor <;> decide

/-- C9 counterexample: a handler run whose catch block fails a registered
job (the request body names the pre-existing job "old") schedules no
deletion timer at all — so a job that reached the terminal state `failed`
is never removed from the registry, while the claim requires removal of
every terminal job after the fixed delay. -/
theorem failed_job_never_scheduled_for_removal :
    ((uploadFolderHandler [("old", Job.new "old" "upload" 2)] "/home/u"
        ⟨"~/photos"⟩ true [] "job-3" (some "old") (some "boom")).1.lookup
        "old").map Job.status = some JobStatus.failed ∧
    (uploadFolderHandler [("old", Job.new "old" "upload" 2)] "/home/u"
        ⟨"~/photos"⟩ true [] "job-3" (some "old") (some "boom")).2.1 = [] := by
  constructor <;> decide

/-- C9 (amended): only a job whose handler reaches the successful
completion path is scheduled for removal, exactly 30000 ms after its
completion (the job stored under the fresh id is then `completed`); a run
that ends in the catch path — including one that moved a job to `failed` —
schedules no removal, and no timer ever targets a non-completed run. -/
theorem cleanup_timer_only_after_complete (reg0 : List (String × Job))
    (homedir : String) (cfg : Config) (pv : Bool) (files : List FileSpec)
    (pages : List (List String)) (lfiles : List LocalFile)
    (freshId : String) (bodyJobId : Option String) :
    ((uploadFolderHandler reg0 homedir cfg pv files freshId bodyJobId
        none).2.1 = [⟨30000, freshId⟩]) ∧
    ((checkSyncStatusHandler reg0 homedir cfg pages lfiles freshId bodyJobId
        none).2.1 = [⟨30000, freshId⟩]) ∧
    (reg0.lookup freshId = none →
      ((uploadFolderHandler reg0 homedir cfg pv files freshId bodyJobId
          none).1.lookup freshId).map Job.status = some JobStatus.completed) ∧
    (∀ e, (uploadFolderHandler reg0 homedir cfg pv files freshId bodyJobId
        (some e)).2.1 = []) ∧
    (∀ e, (checkSyncStatusHandler reg0 homedir cfg pages lfiles freshId
        bodyJobId (some e)).2.1 = []) := by
  refine ⟨?_, ?_, ?_, ?_, ?_⟩
  · rcases hrb : runUploadBatch homedir cfg pv files freshId with ⟨jb, res⟩
    simp [uploadFolderHandler, hrb]
  · rcases hsl : syncLoop (baseFolderName homedir cfg)
      (gatherS3Objects (baseFolderName homedir cfg) pages []) lfiles 0
      (Job.new freshId "sync_check" lfiles.length) [] with ⟨jb, st⟩
    simp [checkSyncStatusHandler, hsl]
  · intro h
    have hst := runUploadBatch_status homedir cfg pv files freshId
    rcases hrb : runUploadBatch homedir cfg pv files freshId with ⟨jb, res⟩
    rw [hrb] at hst
    simp only [uploadFolderHandler, hrb]
    rw [lookup_setJob_append reg0 freshId
      (Job.new freshId "upload" files.length) jb h]
    exact congrArg some hst
  · intro e; rfl
  · intro e; rfl

/-- C9 witness: the amended statement applied to an empty registry, one
file and both an error-free and a failing run. -/
theorem cleanup_timer_only_after_complete_witness :
    (([] : List (String × Job)).lookup "job-4" = none) ∧
    ((uploadFolderHandler [] "/home/u" ⟨"~/photos"⟩ true [] "job-4" none
        none).1.lookup "job-4").map Job.status = some JobStatus.completed :=
  ⟨by decide,
   (cleanup_timer_only_after_complete [] "/home/u" ⟨"~/photos"⟩ true [] [] []
     "job-4" none).2.2.1 (by decide)⟩

/-- C10: in both reconciliation modes every result entry's remote key is
`baseFolderName/relativePath` regardless of the presence flag, and the
flag holds exactly on an exact relative-path match against the stripped
remote key set; consequently a file uploaded under the timestamped
(non-structure-preserving) key scheme — whose stripped key is
`timestamp_basename` — is never reported present, since that stripped key
can never equal the file's own relative path. -/
theorem sync_exact_match_timestamped_never_present (homedir : String)
    (cfg : Config) (pages : List (List String)) (files : List LocalFile)
    (reg0 : List (String × Job)) (freshId : String)
    (bodyJobId : Option String) :
    (∀ p ∈ checkSyncStatusSimple homedir cfg pages files,
      p.2.s3Key = baseFolderName homedir cfg ++ "/" ++ p.2.file.relativePath ∧
      (p.2.inS3 = true ↔ p.2.file.relativePath ∈
        gatherS3Objects (baseFolderName homedir cfg) pages [])) ∧
    (∀ p ∈ (checkSyncStatusHandler reg0 homedir cfg pages files freshId
        bodyJobId none).2.2,
      p.2.s3Key = baseFolderName homedir cfg ++ "/" ++ p.2.file.relativePath ∧
      (p.2.inS3 = true ↔ p.2.file.relativePath ∈
        gatherS3Objects (baseFolderName homedir cfg) pages [])) ∧
    (∀ (now : Nat) (relPath : String), relPath ≠ "" →
      relPath.data.getLast? ≠ some '/' →
      stripBase (baseFolderName homedir cfg)
        (s3KeyUploadFolder homedir cfg false now relPath
          (basenamePosix relPath)) ≠ relPath) := by
  refine ⟨?_, ?_, ?_⟩
  · rw [checkSyncStatusSimple_eq]
    intro p hp
    obtain ⟨f, hf, hpf⟩ := List.mem_map.mp hp
    subst hpf
    simp
  · rw [checkSyncStatusHandler_syncStatus]
    intro p hp
    obtain ⟨f, hf, hpf⟩ := List.mem_map.mp hp
    subst hpf
    simp
  · intro now relPath hne hlast heq
    have hassoc : s3KeyUploadFolder homedir cfg false now relPath
        (basenamePosix relPath) =
        baseFolderName homedir cfg ++ "/" ++
          (Nat.repr now ++ "_" ++ basenamePosix relPath) := by
      apply String.ext
      simp [s3KeyUploadFolder, String.data_append]
    rw [hassoc, stripBase_append] at heq
    by_cases hmem : '/' ∈ relPath.data
    · rw [← heq] at hmem
      have hdata : (Nat.repr now ++ "_" ++ basenamePosix relPath).data =
          (Nat.repr now).data ++ ('_' :: (basenamePosix relPath).data) := by
        have hu : ("_" : String).data = ['_'] := rfl
        simp [String.data_append, hu]
      rw [hdata] at hmem
      rcases List.mem_append.mp hmem with hm | hm
      · exact repr_ne_slash now hm
      · rcases List.mem_cons.mp hm with hm | hm
        · exact absurd hm (by decide)
        · exact basenamePosix_no_slash relPath hne hlast hm
    · rw [basenamePosix_of_no_slash relPath hne hmem] at heq
      have hlen := congrArg String.length heq
      rw [String.length_append, String.length_append] at hlen
      have h1 : ("_" : String).length = 1 := rfl
      rw [h1] at hlen
      omega

/-- C10 witness: the per-entry clauses applied to the concrete entry of a
one-file, one-page reconciliation, and the timestamped-key clause applied
to the relative path "a.jpg". -/
theorem sync_exact_match_witness :
    ((("a.jpg", (⟨⟨"a.jpg", "a.jpg"⟩, true, "photos/a.jpg"⟩ : SyncEntry)) :
        String × SyncEntry).2.s3Key =
      baseFolderName "/home/u" ⟨"~/photos"⟩ ++ "/" ++ "a.jpg" ∧
      (((("a.jpg", (⟨⟨"a.jpg", "a.jpg"⟩, true, "photos/a.jpg"⟩ : SyncEntry)) :
          String × SyncEntry).2.inS3 = true) ↔ ("a.jpg" : String) ∈
        gatherS3Objects (baseFolderName "/home/u" ⟨"~/photos"⟩)
          [["photos/a.jpg"]] [])) ∧
    stripBase (baseFolderName "/home/u" ⟨"~/photos"⟩)
      (s3KeyUploadFolder "/home/u" ⟨"~/photos"⟩ false 0 "a.jpg"
        (basenamePosix "a.jpg")) ≠ "a.jpg" :=
  ⟨(sync_exact_match_timestamped_never_present "/home/u" ⟨"~/photos"⟩
      [["photos/a.jpg"]] [⟨"a.jpg", "a.jpg"⟩] [] "job-5" none).1
      ("a.jpg", ⟨⟨"a.jpg", "a.jpg"⟩, true, "photos/a.jpg"⟩) (by decide),
   (sync_exact_match_timestamped_never_present "/home/u" ⟨"~/photos"⟩
      [["photos/a.jpg"]] [⟨"a.jpg", "a.jpg"⟩] [] "job-5" none).2.2 0 "a.jpg"
      (by decide) (by decide)⟩

/-- C6: the transfer strategy is streaming exactly when the byte size
strictly exceeds 100 * 1024 * 1024; at the threshold itself the buffered
path is chosen, one byte above it the streaming path. -/
theorem strategy_strict_threshold :
    (∀ n : Nat, selectStrategy n = TransferStrategy.streaming ↔
      100 * 1024 * 1024 < n) ∧
    selectStrategy (100 * 1024 * 1024) = TransferStrategy.buffered ∧
    selectStrategy (100 * 1024 * 1024 + 1) = TransferStrategy.streaming := by
  refine ⟨fun n => ?_, by norm_num [selectStrategy, isLargeFile],
    by norm_num [selectStrategy, isLargeFile]⟩
  simp only [selectStrategy, isLargeFile]
  split <;> rename_i hsplit <;> simp_all

end Photorific
